import Mathlib

/-!
Shallow embedding of the sentiment-analysis engine of `src/analyzer.js`
(classes `SentimentAnalyzer` and `ContextualAnalyzer`), together with
theorems checking the natural-language specification against it.

Modelling conventions:
* JavaScript numbers are modelled as exact rationals (`ℚ`).  The engine only
  performs field arithmetic, comparisons, `Math.min`/`Math.max`, and decimal
  rounding via `toFixed(2)`, all of which are exact on `ℚ`; the sole
  exception, `Math.sqrt` (used once, in `_analyzeIntensity`), is modelled by
  an abstract function field `sqrtFn : ℚ → ℚ` carried by the analyzer.
* JavaScript strings are Lean `String`s; the handful of string operations the
  source uses (`trim`, `split`, `includes`, `toLowerCase`, `join`) are
  implemented below on `List Char` so that every definition is executable.
* The Unicode property class `\p{Emoji}` used by the emoji-extraction regex
  is modelled by an abstract character predicate `isEmoji : Char → Bool`
  carried by the analyzer (it is host-runtime data, not part of the engine).
* Dictionary objects (`positiveWords`, `modifierPrefixes`, ...) are
  association lists looked up front-to-back, matching JavaScript property
  access on objects built by insertion.
* `analyze(text)` receives `Option String`: `none` stands for any
  non-string argument (`null`, `undefined`, a number, ...), `some t` for a
  string argument.
-/

namespace MindSet

/- Rational arithmetic must evaluate on concrete inputs; the Batteries
definitions are irreducible by default, which only affects unfolding, so we
restore the default reducibility for this development. -/
attribute [local semireducible] Rat.add Rat.mul Rat.sub Rat.inv
  Rat.ofScientific

/-! ### String utilities modelling the JavaScript string operations -/

/-- Whitespace class used to model the regex `\s` and `String.prototype.trim`. -/
def isWsChar (c : Char) : Bool :=
  c = ' ' ∨ c = '\t' ∨ c = '\n' ∨ c = '\r'

/-- Punctuation class of the normalisation regex `/[.,!?;:(){}\[\]\/\\]/g`. -/
def isPunctChar (c : Char) : Bool :=
  c = '.' ∨ c = ',' ∨ c = '!' ∨ c = '?' ∨ c = ';' ∨ c = ':' ∨
  c = '(' ∨ c = ')' ∨ c = Char.ofNat 123 ∨ c = Char.ofNat 125 ∨
  c = '[' ∨ c = ']' ∨ c = '/' ∨ c = '\\'

/-- Model of `String.prototype.trim`: strip leading and trailing whitespace. -/
def trimString (s : String) : String :=
  String.mk (((s.toList.dropWhile isWsChar).reverse.dropWhile isWsChar).reverse)

/-- Accumulator-passing worker for `splitRuns`. -/
def splitRunsAux (p : Char → Bool) : List Char → List Char → List String
  | [], acc => if acc = [] then [] else [String.mk acc.reverse]
  | c :: cs, acc =>
    if p c then
      if acc = [] then splitRunsAux p cs []
      else String.mk acc.reverse :: splitRunsAux p cs []
    else splitRunsAux p cs (c :: acc)

/-- Maximal runs of characters not satisfying `p` (splitting that drops
empty fragments). -/
def splitRuns (p : Char → Bool) (l : List Char) : List String :=
  splitRunsAux p l []

/-- Model of `Array.prototype.join(sep)`. -/
def joinSep (sep : String) : List String → String
  | [] => ""
  | [x] => x
  | x :: xs => x ++ sep ++ joinSep sep xs

/-- Does `pat` occur at the head of `l`?  (helper for substring search). -/
def startsWithL (pat l : List Char) : Bool :=
  match pat, l with
  | [], _ => true
  | _ :: _, [] => false
  | p :: ps, c :: cs => p = c && startsWithL ps cs

/-- Model of `String.prototype.includes(pat)` (substring containment). -/
def containsSub (l pat : List Char) : Bool :=
  match l with
  | [] => startsWithL pat []
  | _ :: cs => startsWithL pat l || containsSub cs pat

/-- Model of `String.prototype.startsWith(pat)`. -/
def strStartsWith (s pat : String) : Bool :=
  startsWithL pat.toList s.toList

/-- Model of `String.prototype.split(sep)` for a non-regex separator string:
split at every non-overlapping left-to-right occurrence of `sep`, keeping
empty fragments.  (For the degenerate `sep = ""` JavaScript splits between
every character; the engine never calls it that way and the model returns
the whole string.) -/
def splitSeqAux (sep : List Char) : ℕ → List Char → List Char →
    List (List Char)
  | _, [], acc => [acc.reverse]
  | 0, l, acc => [acc.reverse ++ l]
  | fuel + 1, c :: cs, acc =>
    if startsWithL sep (c :: cs) then
      acc.reverse :: splitSeqAux sep fuel ((c :: cs).drop sep.length) []
    else
      splitSeqAux sep fuel cs (c :: acc)

/-- Split a string on every occurrence of a separator string.  The fuel
argument of the worker is one source character per step, which the worker
never exhausts because every step consumes at least one character. -/
def splitSeq (s sep : String) : List String :=
  if sep.toList = [] then [s]
  else (splitSeqAux sep.toList s.toList.length s.toList []).map String.mk

/-! ### Decimal rounding

`parseFloat(x.toFixed(2))`: round to the nearest multiple of `1/100`, ties
to the larger value (ECMA-262 `Number.prototype.toFixed`). -/

def toFixed2 (x : ℚ) : ℚ :=
  ((⌊x * 100 + 1 / 2⌋ : ℤ) : ℚ) / 100

/-! ### The lexicon-driven base analyzer (`SentimentAnalyzer`)

The structure holds the fields the constructor extracts from the dictionary
(`this.positiveWords`, ..., `this.config`).  Constructor defaults
(`negationWindow: 5`, `contextWindow: 3`, `idiomDetectionRadius: 5`, missing
tables becoming empty) are applied by the loader; the theorems below
quantify over all field values, which covers every constructible state. -/

/-- First-match association-list lookup, modelling JavaScript object
property access (`obj[key] !== undefined`). -/
def alookup {α β : Type} [DecidableEq α] (k : α) : List (α × β) → Option β
  | [] => none
  | (k', v) :: rest => if k' = k then some v else alookup k rest

structure SentimentAnalyzer where
  positiveWords : List (String × ℚ)
  neutralWords : List (String × ℚ)
  negativeWords : List (String × ℚ)
  modifierPrefixes : List (String × ℚ)
  idioms : List (String × ℚ)
  idiomPatterns : List (String × List String)
  negationWords : List String
  emojiSentiments : List (Char × ℚ)
  negationWindow : ℕ
  contextWindow : ℕ
  idiomDetectionRadius : ℕ
  isEmoji : Char → Bool

/-- Per-token base polarity resolution, `analyze` lines 142-149: the
positive table is consulted first, then the negative table, then the
neutral table; the first table containing the token wins.  The identical
chain is duplicated verbatim in `_analyzeWordContext` (lines 421-429),
modelled by this same function. -/
def lookupWordScore (A : SentimentAnalyzer) (w : String) : Option ℚ :=
  match alookup w A.positiveWords with
  | some v => some v
  | none =>
    match alookup w A.negativeWords with
    | some v => some v
    | none => alookup w A.neutralWords

/-- The prefix-modifier application block, `analyze` lines 191-203. -/
def applyModifier (m s : ℚ) : ℚ :=
  if m < 0 then
    let s' := 1 - s
    if s' = 1 / 2 then 2 / 5 else s'
  else if m ≠ 1 then
    if s > 1 / 2 then min 1 (1 / 2 + (s - 1 / 2) * m)
    else if s < 1 / 2 then max 0 (1 / 2 - (1 / 2 - s) * m)
    else s
  else s

/-- The whole per-token score transformation, `analyze` lines 183-203:
negation blending (lines 184-189) followed by the modifier block
(lines 192-203), exactly as laid out in the source. -/
def modifiedTokenScore (negActive : Bool) (negDist W : ℕ) (m s : ℚ) : ℚ :=
  let s1 :=
    if negActive then
      1 / 2 + (1 / 2 - s) * (1 - (negDist : ℚ) / (W : ℚ))
    else s
  if m < 0 then
    let s' := 1 - s1
    if s' = 1 / 2 then 2 / 5 else s'
  else if m ≠ 1 then
    if s1 > 1 / 2 then min 1 (1 / 2 + (s1 - 1 / 2) * m)
    else if s1 < 1 / 2 then max 0 (1 / 2 - (1 / 2 - s1) * m)
    else s1
  else s1

/-- The nine-bucket score-to-label mapping, `_getSentimentFromScore`
(duplicated verbatim in both classes). -/
def sentimentFromScore (score : ℚ) : String :=
  if score ≥ 85 / 100 then "très positif"
  else if score ≥ 7 / 10 then "positif"
  else if score ≥ 6 / 10 then "plutôt positif"
  else if score ≥ 55 / 100 then "légèrement positif"
  else if score ≥ 45 / 100 ∧ score < 55 / 100 then "neutre"
  else if score ≥ 4 / 10 then "légèrement négatif"
  else if score ≥ 3 / 10 then "plutôt négatif"
  else if score ≥ 15 / 100 then "négatif"
  else "très négatif"

/-! ### Text normalisation and tokenisation (`analyze` lines 54-59, 106)

`text.toLowerCase().replace(/[.,!?;:(){}\[\]\/\\]/g, " ").replace(/\s+/g, " ").trim()`
followed by `.split(" ")`.  After whitespace collapsing and trimming, the
split yields exactly the maximal non-whitespace runs, except that an empty
normalised text yields the single token `""`. -/

def tokenize (text : String) : List String :=
  splitRuns isWsChar
    (text.toList.map (fun c => if isPunctChar c then ' ' else c.toLower))

/-- The normalised text (single-space separated, trimmed). -/
def normalizedText (text : String) : String :=
  joinSep " " (tokenize text)

/-- The token array `normalizedText.split(" ")` iterated by the main loop. -/
def wordsOf (text : String) : List String :=
  match tokenize text with
  | [] => [""]
  | ts => ts

/-! ### Evidence records (`details`) -/

structure WordEvidence where
  word : String
  originalScore : ℚ
  modifiedScore : ℚ
  contextScore : ℚ
  negated : Bool
deriving DecidableEq

/-- Entries of `details.modifiers`: negation scope boundary markers and
applied phrase modifiers. -/
inductive ModifierEvidence where
  | negationStart (phrase : String)
  | negationEnd (phrase : String)
  | phraseMod (phrase target : String) (modification : ℚ)
deriving DecidableEq

structure IdiomEvidence where
  phrase : String
  score : ℚ
deriving DecidableEq

structure EmojiEvidence where
  emoji : Char
  score : ℚ
deriving DecidableEq

structure Details where
  words : List WordEvidence
  modifiers : List ModifierEvidence
  idioms : List IdiomEvidence
  emojis : List EmojiEvidence
deriving DecidableEq

structure BaseResult where
  score : ℚ
  sentiment : String
  confidence : ℚ
  details : Details
deriving DecidableEq

/-! ### Local context re-scoring (`_getContextWords`, `_analyzeWordContext`) -/

/-- `_getContextWords` (lines 402-406): `words.slice(max(0, pos-win),
min(len, pos+win+1))` with the centre position filtered out. -/
def getContextWords (ws : List String) (pos win : ℕ) : List String :=
  let start := pos - win
  let stop := min ws.length (pos + win + 1)
  ((ws.drop start).take (stop - start)).enum.filterMap
    (fun je => if start + je.1 = pos then none else some je.2)

/-- `_analyzeWordContext` (lines 412-460).  The `centralWord` parameter of
the source is unused there and dropped here.  Its word-score lookup chain is
line-for-line the one of the main loop, shared via `lookupWordScore`. -/
def analyzeWordContext (A : SentimentAnalyzer) (contextWords : List String)
    (centralScore : ℚ) : ℚ :=
  if contextWords = [] then centralScore
  else
    let scored := contextWords.filterMap (lookupWordScore A)
    let contextualModifier := (scored.map (fun v => (v - 1 / 2) * (1 / 5))).sum
    if scored = [] then centralScore
    else if contextualModifier > 0 ∧ centralScore > 1 / 2 then
      min 1 (centralScore + contextualModifier * (1 / 2))
    else if contextualModifier < 0 ∧ centralScore < 1 / 2 then
      max 0 (centralScore + contextualModifier * (1 / 2))
    else if contextualModifier > 0 ∧ centralScore < 1 / 2 then
      min (1 / 2) (centralScore + contextualModifier * (3 / 10))
    else if contextualModifier < 0 ∧ centralScore > 1 / 2 then
      max (1 / 2) (centralScore + contextualModifier * (3 / 10))
    else centralScore

/-! ### Idiom detection (`_detectIdioms`, lines 256-396, and the simple
substring strategy of lines 79-84) -/

/-- Simple strategy: substring containment of each idiom phrase in the
normalised text. -/
def simpleIdioms (A : SentimentAnalyzer) (ntext : String) :
    List IdiomEvidence :=
  A.idioms.filterMap (fun iv =>
    if containsSub ntext.toList iv.1.toList then some ⟨iv.1, iv.2⟩ else none)

structure IdiomInfo where
  fullIdiom : String
  score : ℚ
deriving DecidableEq

/-- Append `v` under key `k`, preserving first-insertion key order
(JavaScript object keyed by string with push-into-array values). -/
def upsertKeyword (m : List (String × List IdiomInfo)) (k : String)
    (v : IdiomInfo) : List (String × List IdiomInfo) :=
  match m with
  | [] => [(k, [v])]
  | (k', vs) :: rest =>
    if k' = k then (k', vs ++ [v]) :: rest
    else (k', vs) :: upsertKeyword rest k v

/-- The four high-frequency verb roots special-cased by `_detectIdioms`. -/
def commonVerbRoots : List String := ["être", "avoir", "se", "faire"]

/-- `idiomKeywords` construction (lines 262-289): idioms rooted in a common
verb are indexed by the remainder of the phrase when that remainder is
longer than 2 characters (shorter ones are dropped entirely); other idioms
are indexed by themselves. -/
def buildIdiomKeywords (idioms : List (String × ℚ)) :
    List (String × List IdiomInfo) :=
  idioms.foldl (fun m iv =>
    let idiomWords := splitSeq iv.1 " "
    if 2 ≤ idiomWords.length ∧ idiomWords.headD "" ∈ commonVerbRoots then
      let keyword := joinSep " " (idiomWords.drop 1)
      if 2 < keyword.length then upsertKeyword m keyword ⟨iv.1, iv.2⟩ else m
    else upsertKeyword m iv.1 ⟨iv.1, iv.2⟩) []

/-- Keyword match test (lines 298-304): the loop only compares positions
that exist, so a keyword truncated by the end of the token array still
matches. -/
def keywordMatchesAt (ws kws : List String) (i : ℕ) : Bool :=
  (List.range kws.length).all (fun j =>
    decide (ws.length ≤ i + j) || decide (ws.getD (i + j) "" = kws.getD j ""))

/-- One step of the backward verb/pronoun scan (lines 319-371) at position
`k`, for an idiom whose first word is `firstWord`. -/
def verbFoundAt (A : SentimentAnalyzer) (ws : List String) (i k : ℕ)
    (firstWord : String) : Bool :=
  let cand := ws.getD k ""
  (if firstWord = "être" then
    match alookup "être" A.idiomPatterns with
    | some forms => forms.contains cand
    | none => false
  else if firstWord = "avoir" then
    match alookup "avoir" A.idiomPatterns with
    | some forms => forms.contains cand
    | none => false
  else if firstWord = "se" then
    (match alookup "se faire" A.idiomPatterns with
     | some forms => forms.contains cand
     | none => false) ||
    (match alookup "pronouns" A.idiomPatterns with
     | some prons =>
       prons.contains cand && decide (k + 1 < i) &&
         strStartsWith (ws.getD (k + 1) "") "fai"
     | none => false)
  else if firstWord = "faire" then strStartsWith cand "fai"
  else false) ||
  (match alookup "pronouns" A.idiomPatterns with
   | some prons =>
     prons.contains cand && decide (k + 1 < i) &&
       (let nextWord := ws.getD (k + 1) ""
        (firstWord = "être" && strStartsWith nextWord "s") ||
        (firstWord = "avoir" && strStartsWith nextWord "a") ||
        (firstWord = "faire" && strStartsWith nextWord "fai"))
   | none => false)

/-- The backward scan over `[max(0, i - radius), i)`. -/
def scanVerbFound (A : SentimentAnalyzer) (ws : List String) (i : ℕ)
    (firstWord : String) : Bool :=
  let start := i - A.idiomDetectionRadius
  (List.range (i - start)).any (fun o => verbFoundAt A ws i (start + o) firstWord)

/-- Pattern-aware idiom detection `_detectIdioms` (lines 256-396), used when
`idiomPatterns` is non-empty.  The `position` field of each detection is
display-only and omitted. -/
def detectIdioms (A : SentimentAnalyzer) (ntext : String) :
    List IdiomEvidence :=
  let ws := splitSeq ntext " "
  let keywords := buildIdiomKeywords A.idioms
  (List.range ws.length).flatMap (fun i =>
    keywords.flatMap (fun kentry =>
      let kws := splitSeq kentry.1 " "
      if keywordMatchesAt ws kws i then
        kentry.2.filterMap (fun info =>
          let parts := splitSeq info.fullIdiom " "
          let firstWord := parts.headD ""
          if firstWord ∈ commonVerbRoots then
            if scanVerbFound A ws i firstWord then
              some ⟨info.fullIdiom, info.score⟩
            else none
          else some ⟨info.fullIdiom, info.score⟩)
      else []))

/-! ### The main scoring loop (`analyze` lines 106-238) -/

/-- Mutable loop state of `analyze`: negation tracking plus the running
accumulators. -/
structure LoopState where
  negActive : Bool
  negDist : ℕ
  wordsEv : List WordEvidence
  modifiersEv : List ModifierEvidence
  totalScore : ℚ
  wordCount : ℕ
  confidence : ℚ
deriving DecidableEq

/-- Prefix-modifier resolution (lines 156-181): one-word modifier at `i-1`,
then two-word modifier at `i-2 .. i-1`, the latter overriding the former;
each match is recorded as evidence. -/
def resolveModifier (A : SentimentAnalyzer) (ws : List String) (i : ℕ)
    (word : String) : ℚ × List ModifierEvidence :=
  if 0 < i then
    let previousWord := ws.getD (i - 1) ""
    let one :=
      match alookup previousWord A.modifierPrefixes with
      | some v => (v, [ModifierEvidence.phraseMod previousWord word v])
      | none => ((1 : ℚ), ([] : List ModifierEvidence))
    if 1 < i then
      let twoWord := ws.getD (i - 2) "" ++ " " ++ previousWord
      match alookup twoWord A.modifierPrefixes with
      | some v => (v, one.2 ++ [ModifierEvidence.phraseMod twoWord word v])
      | none => one
    else one
  else (1, [])

/-- A negation trigger token (lines 117-126): open a scope, reset the
distance, record the boundary marker, and skip scoring (`continue`). -/
def markNegation (st : LoopState) (word : String) : LoopState :=
  { st with
    negActive := true, negDist := 0,
    modifiersEv := st.modifiersEv ++ [ModifierEvidence.negationStart word] }

/-- Distance bookkeeping for a non-trigger token (lines 129-139): advance
the distance of an active scope and close it past the window. -/
def stepNegation (A : SentimentAnalyzer) (ws : List String) (st : LoopState)
    (i : ℕ) : LoopState :=
  if st.negActive then
    let d := st.negDist + 1
    if A.negationWindow < d then
      { st with
        negActive := false, negDist := d,
        modifiersEv := st.modifiersEv ++
          [ModifierEvidence.negationEnd (ws.getD (i - A.negationWindow) "")] }
    else { st with negDist := d }
  else st

/-- Scoring of a resolved token (lines 141-228): polarity lookup, modifier
resolution, score transformation, local-context re-scoring, accumulation. -/
def scoreWord (A : SentimentAnalyzer) (ws : List String) (st1 : LoopState)
    (i : ℕ) : LoopState :=
  let word := ws.getD i ""
  match lookupWordScore A word with
  | none => st1
  | some wordScore =>
    let mm := resolveModifier A ws i word
    let score :=
      modifiedTokenScore st1.negActive st1.negDist A.negationWindow
        mm.1 wordScore
    let contextWords := getContextWords ws i A.contextWindow
    let contextScore := analyzeWordContext A contextWords score
    { st1 with
      wordsEv := st1.wordsEv ++
        [⟨word, wordScore, score, contextScore, st1.negActive⟩],
      modifiersEv := st1.modifiersEv ++ mm.2,
      totalScore := st1.totalScore + contextScore,
      wordCount := st1.wordCount + 1,
      confidence := st1.confidence + 1 / 2 }

/-- One iteration of the word loop (lines 113-229). -/
def processToken (A : SentimentAnalyzer) (ws : List String) (st : LoopState)
    (i : ℕ) : LoopState :=
  let word := ws.getD i ""
  if A.negationWords.contains word then markNegation st word
  else scoreWord A ws (stepNegation A ws st i) i

/-- `analyze` on a non-empty string: the unrounded final score, the
unrounded confidence, and the evidence; `analyze` itself then rounds the two
numbers to two decimals. -/
def rawAnalyze (A : SentimentAnalyzer) (text : String) : ℚ × ℚ × Details :=
  let emojis := text.toList.filter A.isEmoji
  let ntext := normalizedText text
  let detected :=
    if A.idiomPatterns ≠ [] then detectIdioms A ntext else simpleIdioms A ntext
  let emojiEvs := emojis.filterMap (fun e =>
    (alookup e A.emojiSentiments).map (fun s => EmojiEvidence.mk e s))
  let ws := wordsOf text
  let st0 : LoopState :=
    { negActive := false, negDist := 0, wordsEv := [], modifiersEv := [],
      totalScore := (detected.map IdiomEvidence.score).sum +
        (emojiEvs.map EmojiEvidence.score).sum,
      wordCount := detected.length + emojiEvs.length,
      confidence := (8 / 10) * (detected.length : ℚ) +
        (7 / 10) * (emojiEvs.length : ℚ) }
  let st := (List.range ws.length).foldl (processToken A ws) st0
  let finalScore :=
    if 0 < st.wordCount then st.totalScore / (st.wordCount : ℚ) else 1 / 2
  let conf :=
    if 0 < st.wordCount then
      min 1 (st.confidence / ((st.wordCount : ℚ) * (8 / 10)))
    else 0
  (finalScore, conf, ⟨st.wordsEv, st.modifiersEv, detected, emojiEvs⟩)

/-- The fixed neutral result of the input guard (lines 41-48). -/
def neutralBase : BaseResult :=
  ⟨1 / 2, "neutre", 0, ⟨[], [], [], []⟩⟩

/-- `SentimentAnalyzer.prototype.analyze`.  `none` models any non-string
argument; the guard `!text || typeof text !== "string"` therefore fires
exactly on `none` and on the empty string. -/
def SentimentAnalyzer.analyze (A : SentimentAnalyzer) (input : Option String) :
    BaseResult :=
  match input with
  | none => neutralBase
  | some text =>
    if text = "" then neutralBase
    else
      let r := rawAnalyze A text
      { score := toFixed2 r.1, sentiment := sentimentFromScore r.1,
        confidence := toFixed2 r.2.1, details := r.2.2 }

/-- An analyzer built over the empty lexicon (the source's fallback
dictionary), convenient for concrete evaluations. -/
def emptyAnalyzer : SentimentAnalyzer :=
  { positiveWords := [], neutralWords := [], negativeWords := [],
    modifierPrefixes := [], idioms := [], idiomPatterns := [],
    negationWords := [], emojiSentiments := [],
    negationWindow := 5, contextWindow := 3, idiomDetectionRadius := 5,
    isEmoji := fun _ => false }

/-! ### The structural analyzer (`ContextualAnalyzer`)

The constructor receives the base analyzer and the dictionary; the structure
below holds the constructed state (`this.baseAnalyzer`, `this.weights`,
`this.config`, `this.transitionMarkers`, `this.narrativePatterns`).  The
base analyzer is carried as the scoring function it provides, exactly the
way the class consumes it. -/

/-- Segment types `"beginning" | "middle" | "end" | "singleSentence"`
(`ending` names the `"end"` type, `end` being reserved in Lean). -/
inductive SegType where
  | beginning
  | middle
  | ending
  | singleSentence
deriving DecidableEq

def segTypeName : SegType → String
  | .beginning => "beginning"
  | .middle => "middle"
  | .ending => "end"
  | .singleSentence => "singleSentence"

structure Segment where
  type : SegType
  content : String
deriving DecidableEq

structure Weights where
  progression : ℚ
  conclusion : ℚ
  intensity : ℚ
  transitions : ℚ
  baseline : ℚ
deriving DecidableEq

structure NarrPatternWeights where
  redemption : ℚ
  downfall : ℚ
  consistency : ℚ
  mixed : ℚ
deriving DecidableEq

structure ContextualAnalyzer where
  baseAnalyze : Option String → BaseResult
  weights : Weights
  segmentCount : ℕ
  minSegmentSize : ℕ
  positionWeights : List (String × ℚ)
  transitionMarkers : List (String × ℚ)
  narrativePatterns : NarrPatternWeights
  sqrtFn : ℚ → ℚ

/-- `this.config.positionWeights[segment.type] || 1.0` (line 817); the
JavaScript `||` also maps an explicit weight `0` to the default `1.0`. -/
def posWeight (pws : List (String × ℚ)) (t : SegType) : ℚ :=
  match alookup (segTypeName t) pws with
  | some v => if v = 0 then 1 else v
  | none => 1

/-- Character splitter keeping empty fragments (worker for the sentence
split). -/
def splitKeep (p : Char → Bool) : List Char → List Char → List String
  | [], acc => [String.mk acc.reverse]
  | c :: cs, acc =>
    if p c then String.mk acc.reverse :: splitKeep p cs []
    else splitKeep p cs (c :: acc)

/-- `_splitIntoSentences` (lines 757-763): split on `/[.!?]+/`, trim each
fragment, drop empties.  Splitting on separator runs versus single
separator characters is indistinguishable after the trim-and-drop step. -/
def splitIntoSentences (text : String) : List String :=
  ((splitKeep (fun c => c = '.' ∨ c = '!' ∨ c = '?') text.toList []).map
    trimString).filter (fun s => s ≠ "")

/-- `_segmentText` (lines 769-801): one sentence (or none) passes through
as `singleSentence`; otherwise the first `max(1, ⌊n*0.25⌋)` sentences form
`beginning`, the last `max(1, ⌊n*0.25⌋)` form `end`, and whatever sits
between them forms `middle` (omitted when empty).  `Math.floor(n * 0.25)`
is exactly `n / 4` in natural division. -/
def segmentText (sentences : List String) : List Segment :=
  if sentences.length ≤ 1 then
    [{ type := SegType.singleSentence, content := joinSep " " sentences }]
  else
    let n := sentences.length
    let beginningSize := max 1 (n / 4)
    let middleEnd := n - beginningSize
    let beg : Segment :=
      { type := SegType.beginning,
        content := joinSep " " (sentences.take beginningSize) }
    let mids : List Segment :=
      if beginningSize < middleEnd then
        [{ type := SegType.middle,
           content := joinSep " "
             ((sentences.drop beginningSize).take (middleEnd - beginningSize)) }]
      else []
    let fin : Segment :=
      { type := SegType.ending,
        content := joinSep " " (sentences.drop middleEnd) }
    beg :: mids ++ [fin]

structure SegmentScore where
  type : SegType
  content : String
  score : ℚ
  confidence : ℚ
  weight : ℚ
  wordCount : ℕ
deriving DecidableEq

structure SegmentAnalysis where
  segments : List SegmentScore
  weightedScore : ℚ
  totalWeight : ℚ
deriving DecidableEq

/-- `_analyzeSegments` (lines 807-844): score each segment with the base
analyzer, weight it by position and (discounted) size, and aggregate a
weighted mean. -/
def analyzeSegments (C : ContextualAnalyzer) (segs : List Segment) :
    SegmentAnalysis :=
  let scores : List SegmentScore := segs.map (fun seg =>
    let segmentAnalysis := C.baseAnalyze (some seg.content)
    let positionWeight := posWeight C.positionWeights seg.type
    let wcount :=
      ((splitSeq seg.content " ").filter (fun w => 0 < w.length)).length
    let sizeWeight := min 1 ((wcount : ℚ) / (C.minSegmentSize : ℚ))
    let effectiveWeight := positionWeight * sizeWeight
    { type := seg.type, content := seg.content,
      score := segmentAnalysis.score, confidence := segmentAnalysis.confidence,
      weight := effectiveWeight, wordCount := wcount })
  let totalWeightedScore := (scores.map (fun s => s.score * s.weight)).sum
  let totalWeight := (scores.map (fun s => s.weight)).sum
  { segments := scores,
    weightedScore :=
      if totalWeight > 0 then totalWeightedScore / totalWeight else 1 / 2,
    totalWeight := totalWeight }

structure ProgressionFactor where
  startScore : ℚ := 0
  endScore : ℚ := 0
  progression : ℚ
  impact : ℚ
deriving DecidableEq

def dummySegScore : SegmentScore :=
  ⟨SegType.singleSentence, "", 0, 0, 0, 0⟩

/-- `_analyzeProgression` (lines 850-896).  On the short path the source
returns only `progression`/`impact`; the unread start and end fields are
modelled as `0`. -/
def analyzeProgression (sa : SegmentAnalysis) : ProgressionFactor :=
  let segs := sa.segments
  if segs.length ≤ 1 then
    { startScore := 0, endScore := 0, progression := 0, impact := 0 }
  else
    let beginningSegments := segs.filter (fun s => s.type = SegType.beginning)
    let endSegments := segs.filter (fun s => s.type = SegType.ending)
    let firstSegment := beginningSegments.headD (segs.headD dummySegScore)
    let lastSegment := endSegments.headD (segs.getLastD dummySegScore)
    let progression := lastSegment.score - firstSegment.score
    let impact :=
      if progression > 3 / 10 then progression * (1 / 2)
      else if progression < -(3 / 10) then progression * (4 / 10)
      else progression * (1 / 5)
    { startScore := firstSegment.score, endScore := lastSegment.score,
      progression := toFixed2 progression, impact := toFixed2 impact }

structure ConclusionFactor where
  score : ℚ := 0
  difference : ℚ := 0
  impact : ℚ
deriving DecidableEq

/-- `_analyzeConclusion` (lines 901-955): the `end` segment re-scored
against the mean base score of the other segments, with a five-band impact
scale. -/
def analyzeConclusion (C : ContextualAnalyzer) (segs : List Segment) :
    ConclusionFactor :=
  match segs.filter (fun s => s.type = SegType.ending) with
  | [] => { impact := 0 }
  | conclusion :: _ =>
    let conclusionAnalysis := C.baseAnalyze (some conclusion.content)
    let otherSegments := segs.filter (fun s => ¬ s.type = SegType.ending)
    let otherSegmentsScore :=
      if 0 < otherSegments.length then
        ((otherSegments.map
          (fun s => (C.baseAnalyze (some s.content)).score)).sum) /
          (otherSegments.length : ℚ)
      else 1 / 2
    let difference := conclusionAnalysis.score - otherSegmentsScore
    let impact :=
      if difference > 3 / 10 then difference * (7 / 10)
      else if difference > 1 / 10 then difference * (1 / 2)
      else if difference < -(3 / 10) then difference * (1 / 2)
      else if difference < -(1 / 10) then difference * (3 / 10)
      else difference * (1 / 10)
    { score := conclusionAnalysis.score, difference := toFixed2 difference,
      impact := toFixed2 impact }

structure IntensityFactor where
  stdDev : ℚ := 0
  range : ℚ := 0
  intensity : ℚ := 0
  impact : ℚ
deriving DecidableEq

/-- `_analyzeIntensity` (lines 961-1008): dispersion of the resolved words'
post-modifier scores.  `Math.sqrt` is modelled by the abstract `sqrtFn`. -/
def analyzeIntensity (sqrtFn : ℚ → ℚ) (baseResult : BaseResult) :
    IntensityFactor :=
  let wordScores := baseResult.details.words.map (fun w => w.modifiedScore)
  if wordScores.length < 2 then
    { intensity := 0, impact := 0 }
  else
    let mean := wordScores.sum / (wordScores.length : ℚ)
    let variance :=
      ((wordScores.map (fun s => (s - mean) ^ 2)).sum) /
        (wordScores.length : ℚ)
    let stdDev := sqrtFn variance
    let minScore := wordScores.tail.foldl min (wordScores.headD 0)
    let maxScore := wordScores.tail.foldl max (wordScores.headD 0)
    let range := maxScore - minScore
    let intensity := (stdDev * 2 + range * (1 / 2)) / (5 / 2)
    let impact :=
      if baseResult.score > 6 / 10 then intensity * (15 / 100)
      else if baseResult.score < 4 / 10 then -intensity * (15 / 100)
      else (1 / 2 - baseResult.score) * intensity * (1 / 10)
    { stdDev := toFixed2 stdDev, range := toFixed2 range,
      intensity := toFixed2 intensity, impact := toFixed2 impact }

structure TransitionFactor where
  found : Bool
  marker : String := ""
  weight : ℚ := 0
  beforeScore : ℚ := 0
  afterScore : ℚ := 0
  shift : ℚ := 0
  impact : ℚ
deriving DecidableEq

/-- The regex word class `\w` = `[A-Za-z0-9_]`. -/
def isJsWordChar (c : Char) : Bool :=
  ('a' ≤ c ∧ c ≤ 'z') ∨ ('A' ≤ c ∧ c ≤ 'Z') ∨ ('0' ≤ c ∧ c ≤ '9') ∨ c = '_'

/-- One `\b` assertion: the word-character status differs across the
position (a text edge counts as a non-word character).  Model of the
word-boundary anchors of `new RegExp("\\b" + word + "\\b", "g")`; the
engine only ever uses whether the match count is positive. -/
def wbBoundary (left right : Option Char) : Bool :=
  ((left.map isJsWordChar).getD false) ≠ ((right.map isJsWordChar).getD false)

/-- `_analyzeTransitions` (lines 1014-1087).  The unused `baseResult`
parameter of the source is dropped.  Sorting by descending weight and
taking the head is modelled as the earliest maximal-weight marker
(JavaScript array sort is stable). -/
def analyzeTransitions (C : ContextualAnalyzer) (text : String) :
    TransitionFactor :=
  let lowerText := String.mk (text.toList.map Char.toLower)
  let detected := C.transitionMarkers.filterMap (fun mw =>
    let cnt :=
      ((List.range lowerText.toList.length).filter (fun i =>
        startsWithL mw.1.toList (lowerText.toList.drop i) &&
        wbBoundary ((lowerText.toList.take i).getLast?) (mw.1.toList.head?) &&
        wbBoundary ((lowerText.toList.take (i + mw.1.toList.length)).getLast?)
          ((lowerText.toList.drop (i + mw.1.toList.length)).head?))).length
    if 0 < cnt ∧ mw.1 ≠ "" then some (mw.1, mw.2) else none)
  match detected with
  | [] => { found := false, impact := 0 }
  | d0 :: rest =>
    let strongest := rest.foldl (fun best x => if best.2 < x.2 then x else best) d0
    let parts := splitSeq lowerText strongest.1
    let p0 := parts.getD 0 ""
    let p1 := parts.getD 1 ""
    if parts.length < 2 ∨ (trimString p0).length = 0 ∨
        (trimString p1).length = 0 then
      { found := true, marker := strongest.1,
        impact := strongest.2 * (5 / 100) }
    else
      let beforeTransition := p0
      let afterTransition := joinSep strongest.1 (parts.drop 1)
      let beforeAnalysis := C.baseAnalyze (some beforeTransition)
      let afterAnalysis := C.baseAnalyze (some afterTransition)
      let sentimentShift := afterAnalysis.score - beforeAnalysis.score
      let rawImpact := sentimentShift * strongest.2
      let afterRatio := (afterTransition.length : ℚ) /
        ((beforeTransition.length : ℚ) + (afterTransition.length : ℚ))
      let weightedImpact := rawImpact * min 1 (afterRatio * 2)
      { found := true, marker := strongest.1, weight := strongest.2,
        beforeScore := beforeAnalysis.score, afterScore := afterAnalysis.score,
        shift := toFixed2 sentimentShift, impact := toFixed2 weightedImpact }

inductive NarrPattern where
  | redemption
  | downfall
  | consistency
  | mixed
deriving DecidableEq

/-- `_getPatternDescription` (lines 1131-1144). -/
def patternDescription : NarrPattern → String
  | .redemption =>
    "Évolution positive: le texte commence négativement et évolue vers une conclusion plus positive"
  | .downfall =>
    "Dégradation: le texte commence positivement et évolue vers une conclusion plus négative"
  | .consistency =>
    "Cohérence: le texte maintient un sentiment relativement constant"
  | .mixed =>
    "Sentiment mitigé: le texte présente des variations de sentiment sans tendance forte"

structure NarrativePattern where
  pattern : NarrPattern
  impact : ℚ
  description : String
deriving DecidableEq

/-- `_identifyNarrativePattern` (lines 1093-1125): classified from the
(rounded) progression value. -/
def identifyNarrativePattern (np : NarrPatternWeights)
    (progressionFactor : ProgressionFactor) : NarrativePattern :=
  let progression := progressionFactor.progression
  let progressionAbs := |progression|
  if progression > 1 / 4 then
    { pattern := NarrPattern.redemption,
      impact := toFixed2 (np.redemption * (progressionAbs / (1 / 2))),
      description := patternDescription NarrPattern.redemption }
  else if progression < -(1 / 4) then
    { pattern := NarrPattern.downfall,
      impact := toFixed2 (np.downfall * (progressionAbs / (1 / 2))),
      description := patternDescription NarrPattern.downfall }
  else if progressionAbs < 1 / 10 then
    { pattern := NarrPattern.consistency,
      impact := toFixed2 np.consistency,
      description := patternDescription NarrPattern.consistency }
  else
    { pattern := NarrPattern.mixed,
      impact := toFixed2 np.mixed,
      description := patternDescription NarrPattern.mixed }

/-- `_calculateContextualScore` (lines 1150-1183).  The `|| 0` fallbacks on
the impact fields are the identity on rationals.  `weightedBaseScore` is
computed by the source and never used — kept here verbatim. -/
def calculateContextualScore (w : Weights) (baseScore : ℚ)
    (progressionFactor : ProgressionFactor) (conclusionFactor : ConclusionFactor)
    (intensityFactor : IntensityFactor) (transitionFactor : TransitionFactor)
    (narrativePattern : NarrativePattern) : ℚ :=
  let progressionImpact := progressionFactor.impact
  let conclusionImpact := conclusionFactor.impact
  let intensityImpact := intensityFactor.impact
  let transitionImpact := transitionFactor.impact
  let narrativeImpact := narrativePattern.impact
  let _weightedBaseScore := baseScore * w.baseline
  let weightedProgression := progressionImpact * w.progression
  let weightedConclusion := conclusionImpact * w.conclusion
  let weightedIntensity := intensityImpact * w.intensity
  let weightedTransition := transitionImpact * w.transitions
  let contextualScore := baseScore + weightedProgression + weightedConclusion +
    weightedIntensity + weightedTransition + narrativeImpact
  max 0 (min 1 contextualScore)

structure ContextFactors where
  segments : SegmentAnalysis
  progression : ProgressionFactor
  conclusion : ConclusionFactor
  intensity : IntensityFactor
  transitions : TransitionFactor
  narrative : NarrativePattern
deriving DecidableEq

/-- The enriched result.  The base result's own fields are carried in
`base` (the `...baseResult` spread); `contextFactors := none` models the
empty `{}` of the short path, on which `contextualSentiment` stays absent.
The presentational `trends` narrative (lines 1205-1266) feeds no score and
is referenced by no claim; it is outside this model. -/
structure ContextualResult where
  base : BaseResult
  baseScore : ℚ
  contextualScore : ℚ
  contextFactors : Option ContextFactors
  contextualSentiment : Option String := none
deriving DecidableEq

/-- `ContextualAnalyzer.prototype.analyze` (lines 681-751).  The guard
`!text || typeof text !== "string" || text.trim().length < 10` fires
exactly on `none` and on strings whose trimmed length is below 10. -/
def ContextualAnalyzer.analyze (C : ContextualAnalyzer) (input : Option String) :
    ContextualResult :=
  let baseResult := C.baseAnalyze input
  let short : Bool :=
    match input with
    | none => true
    | some t => (trimString t).length < 10
  if short then
    { base := baseResult, baseScore := baseResult.score,
      contextualScore := baseResult.score, contextFactors := none }
  else
    let text := input.getD ""
    let sentences := splitIntoSentences text
    let segments := segmentText sentences
    let segmentAnalysis := analyzeSegments C segments
    let progressionFactor := analyzeProgression segmentAnalysis
    let conclusionFactor := analyzeConclusion C segments
    let intensityFactor := analyzeIntensity C.sqrtFn baseResult
    let transitionFactor := analyzeTransitions C text
    let narrativePattern :=
      identifyNarrativePattern C.narrativePatterns progressionFactor
    let contextualScore := calculateContextualScore C.weights baseResult.score
      progressionFactor conclusionFactor intensityFactor transitionFactor
      narrativePattern
    let clamped := max 0 (min 1 contextualScore)
    { base := baseResult, baseScore := baseResult.score,
      contextualScore := clamped,
      contextFactors := some
        { segments := segmentAnalysis, progression := progressionFactor,
          conclusion := conclusionFactor, intensity := intensityFactor,
          transitions := transitionFactor, narrative := narrativePattern },
      contextualSentiment := some (sentimentFromScore clamped) }

/-- A structural analyzer wired over `emptyAnalyzer` with the source's
default configuration (constructor lines 643-675), convenient for concrete
evaluations. -/
def emptyContextual : ContextualAnalyzer :=
  { baseAnalyze := SentimentAnalyzer.analyze emptyAnalyzer,
    weights :=
      { progression := 1 / 4, conclusion := 1 / 4, intensity := 15 / 100,
        transitions := 1 / 5, baseline := 15 / 100 },
    segmentCount := 3, minSegmentSize := 3,
    positionWeights :=
      [("beginning", 7 / 10), ("middle", 1), ("end", 3 / 2)],
    transitionMarkers := [("mais", 7 / 10), ("cependant", 7 / 10)],
    narrativePatterns :=
      { redemption := 1 / 5, downfall := -(15 / 100),
        consistency := 5 / 100, mixed := -(5 / 100) },
    sqrtFn := fun _ => 0 }

example : toFixed2 (1 / 3) = 33 / 100 := by norm_num [toFixed2]
example : toFixed2 (1 / 2) = 1 / 2 := by norm_num [toFixed2]
example : applyModifier (-2) (1 / 4) = 3 / 4 := by norm_num [applyModifier]
example : applyModifier (-1) (1 / 2) = 2 / 5 := by norm_num [applyModifier]
example : applyModifier 2 (3 / 4) = 1 := by norm_num [applyModifier]
example : modifiedTokenScore true 1 5 1 (1 / 4) = 7 / 10 := by
  norm_num [modifiedTokenScore]
example : trimString "  ab c  " = "ab c" := by decide
example : splitRuns isWsChar "  ab c ".toList = ["ab", "c"] := by decide
example : splitSeq "x mais y mais z" "mais" = ["x ", " y ", " z"] := by decide
example : containsSub "abcd".toList "bc".toList = true := by decide

example :
    SentimentAnalyzer.analyze emptyAnalyzer (some "Bonjour tout le monde") =
      neutralBase := by decide

example :
    (SentimentAnalyzer.analyze
      { emptyAnalyzer with positiveWords := [("bon", 8 / 10)] }
      (some "bon")).score = 8 / 10 := by decide

example :
    (SentimentAnalyzer.analyze
      { emptyAnalyzer with positiveWords := [("bon", 8 / 10)] }
      (some "bon")).confidence = 63 / 100 := by decide

example :
    (emptyContextual.analyze
      (some "Bon debut. Ensuite moyen. Fin superbe.")).contextualScore
      = 11 / 20 := by decide

example :
    (emptyContextual.analyze (some "court")).contextualScore = 1 / 2 := by
  decide

/-! ## Theorems checking the specification -/

/-- C4: for every non-string or empty input, the lexical scorer returns
exactly `score = 0.5`, the neutral label, `confidence = 0`, and empty
evidence lists.  (`analyze` being a total Lean function over every
`Option String` witnesses the never-raises part of the claim.) -/
theorem spec_C4_neutral_on_invalid_input (A : SentimentAnalyzer)
    (input : Option String) (h : input = none ∨ input = some "") :
    A.analyze input =
      { score := 1 / 2, sentiment := "neutre", confidence := 0,
        details := ⟨[], [], [], []⟩ } := by
  rcases h with h | h <;> subst h <;> rfl

theorem spec_C4_witness :
    SentimentAnalyzer.analyze emptyAnalyzer none =
      { score := 1 / 2, sentiment := "neutre", confidence := 0,
        details := ⟨[], [], [], []⟩ } :=
  spec_C4_neutral_on_invalid_input emptyAnalyzer none (Or.inl rfl)

/-- C5: for every non-string input or text shorter than 10 trimmed
characters, the structural analyzer returns the base result unchanged with
`baseScore = contextualScore = score` and empty context factors. -/
theorem spec_C5_short_text_passthrough (C : ContextualAnalyzer)
    (input : Option String)
    (h : input = none ∨ ∃ t, input = some t ∧ (trimString t).length < 10) :
    C.analyze input =
      { base := C.baseAnalyze input,
        baseScore := (C.baseAnalyze input).score,
        contextualScore := (C.baseAnalyze input).score,
        contextFactors := none, contextualSentiment := none } := by
  rcases h with h | ⟨t, ht, hlen⟩
  · subst h; rfl
  · subst ht
    unfold ContextualAnalyzer.analyze
    rw [if_pos (decide_eq_true hlen)]

theorem spec_C5_witness :
    emptyContextual.analyze (some "court") =
      { base := emptyContextual.baseAnalyze (some "court"),
        baseScore := (emptyContextual.baseAnalyze (some "court")).score,
        contextualScore := (emptyContextual.baseAnalyze (some "court")).score,
        contextFactors := none, contextualSentiment := none } :=
  spec_C5_short_text_passthrough emptyContextual (some "court")
    (Or.inr ⟨"court", rfl, by decide⟩)

/-- C7: the prefix-modifier transform: a negative factor inverts the score
(`1 - s`), nudging an exact `0.5` result to `0.4`; a positive factor other
than `1` intensifies symmetrically around `0.5` and leaves an exact `0.5`
unchanged. -/
theorem spec_C7_modifier_transform (m s : ℚ) :
    (m < 0 →
      applyModifier m s = (if 1 - s = 1 / 2 then 2 / 5 else 1 - s)) ∧
    (0 < m → m ≠ 1 →
      applyModifier m s =
        (if s > 1 / 2 then min 1 (1 / 2 + (s - 1 / 2) * m)
         else if s < 1 / 2 then max 0 (1 / 2 - (1 / 2 - s) * m)
         else 1 / 2)) := by
  constructor
  · intro hm
    unfold applyModifier
    rw [if_pos hm]
  · intro hm hm1
    unfold applyModifier
    rw [if_neg (by linarith), if_pos hm1]
    split_ifs with h1 h2
    · rfl
    · rfl
    · linarith

theorem spec_C7_witness :
    (applyModifier (-2) (1 / 4) =
      (if (1 : ℚ) - 1 / 4 = 1 / 2 then 2 / 5 else 1 - 1 / 4)) ∧
    (applyModifier 2 (3 / 4) =
      (if (3 / 4 : ℚ) > 1 / 2 then min 1 (1 / 2 + (3 / 4 - 1 / 2) * 2)
       else if (3 / 4 : ℚ) < 1 / 2 then max 0 (1 / 2 - (1 / 2 - 3 / 4) * 2)
       else 1 / 2)) :=
  ⟨(spec_C7_modifier_transform (-2) (1 / 4)).1 (by norm_num),
   (spec_C7_modifier_transform 2 (3 / 4)).2 (by norm_num) (by norm_num)⟩

/-- C8: inside an active negation scope at distance `negDist`, the
per-token transform first blends the score to
`0.5 + (0.5 - s) * (1 - negDist/negationWindow)` and only then applies the
prefix-modifier transform: the source's combined per-token block
(lines 183-203) is exactly that composition. -/
theorem spec_C8_negation_before_modifier (negDist W : ℕ) (m s : ℚ) :
    modifiedTokenScore true negDist W m s =
      applyModifier m (1 / 2 + (1 / 2 - s) * (1 - (negDist : ℚ) / (W : ℚ))) :=
  rfl

/-- C9: the narrative pattern is `redemption` iff the progression exceeds
`0.25`, `downfall` iff it is below `-0.25`, `consistency` iff its absolute
value is below `0.1`, and `mixed` exactly on the remaining band — the four
conditions are mutually exclusive and cover every rational progression. -/
theorem spec_C9_narrative_bands (np : NarrPatternWeights)
    (pf : ProgressionFactor) :
    ((identifyNarrativePattern np pf).pattern = NarrPattern.redemption ↔
      pf.progression > 1 / 4) ∧
    ((identifyNarrativePattern np pf).pattern = NarrPattern.downfall ↔
      pf.progression < -(1 / 4)) ∧
    ((identifyNarrativePattern np pf).pattern = NarrPattern.consistency ↔
      |pf.progression| < 1 / 10) ∧
    ((identifyNarrativePattern np pf).pattern = NarrPattern.mixed ↔
      (1 / 10 ≤ |pf.progression| ∧ -(1 / 4) ≤ pf.progression ∧
        pf.progression ≤ 1 / 4)) := by
  unfold identifyNarrativePattern
  dsimp only
  have hself : pf.progression ≤ |pf.progression| := le_abs_self _
  have hnself : -|pf.progression| ≤ pf.progression := neg_abs_le _
  split_ifs with h1 h2 h3
  · exact ⟨iff_of_true rfl h1,
      iff_of_false (by decide) (by linarith),
      iff_of_false (by decide) (by push_neg; linarith),
      iff_of_false (by decide) (fun ⟨_, _, hc⟩ => by linarith)⟩
  · exact ⟨iff_of_false (by decide) h1,
      iff_of_true rfl h2,
      iff_of_false (by decide) (by push_neg; linarith),
      iff_of_false (by decide) (fun ⟨_, hc, _⟩ => by linarith)⟩
  · exact ⟨iff_of_false (by decide) h1,
      iff_of_false (by decide) h2,
      iff_of_true rfl h3,
      iff_of_false (by decide) (fun ⟨hc, _, _⟩ => by linarith)⟩
  · exact ⟨iff_of_false (by decide) h1,
      iff_of_false (by decide) h2,
      iff_of_false (by decide) h3,
      iff_of_true rfl ⟨not_lt.mp h3, by linarith [not_lt.mp h2], not_lt.mp h1⟩⟩

/-- A lexicon whose neutral and negative tables share the token `"bof"`
with different scores, separating the two candidate lookup orders. -/
def overlapAnalyzer : SentimentAnalyzer :=
  { emptyAnalyzer with
    neutralWords := [("bof", 1 / 2)], negativeWords := [("bof", 1 / 5)] }

/-- C2 counterexample: the claim says the neutral table is consulted before
the negative table, so a token in both should resolve to its neutral-table
score (here `1/2`).  The code (lines 142-149) consults the negative table
second and the neutral table last: `"bof"` resolves to the negative-table
score `1/5 ≠ 1/2`. -/
theorem spec_C2_counterexample :
    lookupWordScore overlapAnalyzer "bof" = some (1 / 5) ∧
    alookup "bof" overlapAnalyzer.neutralWords = some (1 / 2) ∧
    (1 / 5 : ℚ) ≠ 1 / 2 := by
  refine ⟨by decide, by decide, by norm_num⟩

/-- C2 amended: base polarity is resolved by checking the positive table
first, then the **negative** table, then the neutral table, the first table
containing the token winning; in particular a token present in both the
neutral and negative tables resolves to its negative-table score. -/
theorem spec_C2_lookup_priority (A : SentimentAnalyzer) (w : String) :
    (∀ v, alookup w A.positiveWords = some v → lookupWordScore A w = some v) ∧
    (alookup w A.positiveWords = none →
      ∀ v, alookup w A.negativeWords = some v →
        lookupWordScore A w = some v) ∧
    (alookup w A.positiveWords = none → alookup w A.negativeWords = none →
      lookupWordScore A w = alookup w A.neutralWords) := by
  unfold lookupWordScore
  refine ⟨fun v hv => ?_, fun hp v hv => ?_, fun hp hn => ?_⟩
  · rw [hv]
  · rw [hp, hv]
  · rw [hp, hn]

theorem spec_C2_witness :
    lookupWordScore overlapAnalyzer "bof" = some (1 / 5) ∧
    lookupWordScore { emptyAnalyzer with positiveWords := [("top", 9 / 10)] }
      "top" = some (9 / 10) :=
  ⟨(spec_C2_lookup_priority overlapAnalyzer "bof").2.1 (by decide) (1 / 5)
      (by decide),
   (spec_C2_lookup_priority
      { emptyAnalyzer with positiveWords := [("top", 9 / 10)] } "top").1
      (9 / 10) (by decide)⟩

/-- C3 counterexample: on five sentences the claim's `⌈5 * 0.25⌉ = 2` would
put the first two sentences into `beginning` and the last two into `end`;
the code (line 777) computes `max(1, ⌊5 * 0.25⌋) = 1` and produces segments
`("a", "b c d", "e")`, not `("a b", "c", "d e")`. -/
theorem spec_C3_counterexample :
    (segmentText ["a", "b", "c", "d", "e"]).map (fun s => (s.type, s.content)) =
      [(SegType.beginning, "a"), (SegType.middle, "b c d"),
        (SegType.ending, "e")] ∧
    (segmentText ["a", "b", "c", "d", "e"]).map (fun s => (s.type, s.content)) ≠
      [(SegType.beginning, "a b"), (SegType.middle, "c"),
        (SegType.ending, "d e")] ∧
    (⌈(5 : ℚ) * (25 / 100)⌉ : ℤ) = 2 := by
  refine ⟨by decide, by decide, ?_⟩
  rw [show (5 : ℚ) * (25 / 100) = 5 / 4 by norm_num]
  norm_num [Int.ceil_eq_iff]

/-- C3 amended: for `n ≥ 2` sentences the first `max(1, ⌊n * 0.25⌋)`
sentences (space-joined) form the `beginning` segment and the last
`max(1, ⌊n * 0.25⌋)` the `end` segment, the sentences between them (when
any) forming `middle`; a single sentence yields one `singleSentence`
segment. -/
theorem spec_C3_segmentation (sentences : List String) :
    (2 ≤ sentences.length →
      segmentText sentences =
        (let b := max 1 (Nat.floor ((sentences.length : ℚ) * (25 / 100)))
         ({ type := SegType.beginning,
            content := joinSep " " (sentences.take b) } : Segment) ::
          (if b < sentences.length - b then
            [({ type := SegType.middle,
                content := joinSep " "
                  ((sentences.drop b).take (sentences.length - b - b)) } :
              Segment)]
          else []) ++
          [{ type := SegType.ending,
             content := joinSep " " (sentences.drop (sentences.length - b)) }])) ∧
    (∀ s, segmentText [s] =
      [{ type := SegType.singleSentence, content := s }]) := by
  constructor
  · intro h2
    have hfloor : Nat.floor ((sentences.length : ℚ) * (25 / 100)) =
        sentences.length / 4 := by
      rw [show ((sentences.length : ℚ)) * (25 / 100) =
        (sentences.length : ℚ) / ((4 : ℕ) : ℚ) by push_cast; ring]
      rw [Nat.floor_div_nat ((sentences.length : ℚ)) 4, Nat.floor_natCast]
    unfold segmentText
    rw [if_neg (by omega)]
    dsimp only
    rw [hfloor]
  · intro s
    rfl

theorem spec_C3_witness :
    segmentText ["a", "b", "c", "d", "e"] =
      (let b := max 1 (Nat.floor (((["a", "b", "c", "d", "e"] :
          List String).length : ℚ) * (25 / 100)))
       ({ type := SegType.beginning,
          content := joinSep " " (["a", "b", "c", "d", "e"].take b) } :
         Segment) ::
        (if b < (["a", "b", "c", "d", "e"] : List String).length - b then
          [({ type := SegType.middle,
              content := joinSep " "
                (((["a", "b", "c", "d", "e"] : List String).drop b).take
                  ((["a", "b", "c", "d", "e"] : List String).length - b - b)) } :
            Segment)]
        else []) ++
        [{ type := SegType.ending,
           content := joinSep " "
             ((["a", "b", "c", "d", "e"] : List String).drop
               ((["a", "b", "c", "d", "e"] : List String).length - b)) }]) :=
  (spec_C3_segmentation ["a", "b", "c", "d", "e"]).1 (by decide)

/-- Clamping to `[0, 1]` is idempotent (the pipeline clamps in
`_calculateContextualScore` and again on line 737). -/
theorem clamp01_idem (x : ℚ) :
    max 0 (min 1 (max 0 (min 1 x))) = max 0 (min 1 x) := by
  rcases le_total x 0 with h | h <;> rcases le_total 1 x with h1 | h1 <;>
    simp [max_def, min_def] <;> split_ifs <;> linarith

/-- C1: for every text of at least 10 trimmed characters the structural
analyzer's final score is
`clamp₀₁(baseScore + progressionImpact·w.progression +
conclusionImpact·w.conclusion + intensityImpact·w.intensity +
transitionImpact·w.transitions + narrativeImpact)` — the narrative impact
enters at full scale, and the configured `baseline` weight never enters:
changing it leaves the entire result untouched. -/
theorem spec_C1_contextual_score_formula (C : ContextualAnalyzer) (t : String)
    (h : 10 ≤ (trimString t).length) :
    (∃ cf, (C.analyze (some t)).contextFactors = some cf ∧
      (C.analyze (some t)).contextualScore =
        max 0 (min 1 ((C.analyze (some t)).baseScore +
          cf.progression.impact * C.weights.progression +
          cf.conclusion.impact * C.weights.conclusion +
          cf.intensity.impact * C.weights.intensity +
          cf.transitions.impact * C.weights.transitions +
          cf.narrative.impact))) ∧
    (∀ b, ContextualAnalyzer.analyze
        { C with weights := { C.weights with baseline := b } } (some t) =
      C.analyze (some t)) := by
  have hns : ¬ (decide ((trimString t).length < 10) = true) := by
    simp only [decide_eq_true_eq]
    omega
  constructor
  · unfold ContextualAnalyzer.analyze
    rw [if_neg hns]
    dsimp only
    refine ⟨_, rfl, ?_⟩
    unfold calculateContextualScore
    dsimp only
    exact clamp01_idem _
  · intro b
    obtain ⟨ba, ⟨wp, wc, wi, wt, wb⟩, sc, ms, pw, tm, np, sq⟩ := C
    unfold ContextualAnalyzer.analyze
    simp only [if_neg hns]
    unfold calculateContextualScore
    dsimp only
    rfl

theorem spec_C1_witness :
    (∃ cf, (emptyContextual.analyze
        (some "Bon debut. Ensuite moyen. Fin superbe.")).contextFactors =
          some cf ∧
      (emptyContextual.analyze
        (some "Bon debut. Ensuite moyen. Fin superbe.")).contextualScore =
        max 0 (min 1 ((emptyContextual.analyze
            (some "Bon debut. Ensuite moyen. Fin superbe.")).baseScore +
          cf.progression.impact * emptyContextual.weights.progression +
          cf.conclusion.impact * emptyContextual.weights.conclusion +
          cf.intensity.impact * emptyContextual.weights.intensity +
          cf.transitions.impact * emptyContextual.weights.transitions +
          cf.narrative.impact))) ∧
    (∀ b, ContextualAnalyzer.analyze
        { emptyContextual with
          weights := { emptyContextual.weights with baseline := b } }
        (some "Bon debut. Ensuite moyen. Fin superbe.") =
      emptyContextual.analyze
        (some "Bon debut. Ensuite moyen. Fin superbe.")) :=
  spec_C1_contextual_score_formula emptyContextual
    "Bon debut. Ensuite moyen. Fin superbe." (by decide)

/-- Every rounded value is an integer number of hundredths. -/
theorem toFixed2_hundredths (x : ℚ) : ∃ k : ℤ, toFixed2 x = (k : ℚ) / 100 :=
  ⟨⌊x * 100 + 1 / 2⌋, rfl⟩

/-- The lexical scorer only ever returns scores that are integer numbers of
hundredths (the `toFixed(2)` rounding of line 244, or the literal `0.5`). -/
theorem analyze_score_hundredths (A : SentimentAnalyzer)
    (input : Option String) :
    ∃ k : ℤ, (A.analyze input).score = (k : ℚ) / 100 := by
  match input with
  | none => exact ⟨50, by norm_num [SentimentAnalyzer.analyze, neutralBase]⟩
  | some t =>
    unfold SentimentAnalyzer.analyze
    dsimp only
    split_ifs
    · exact ⟨50, by norm_num [neutralBase]⟩
    · exact ⟨⌊(rawAnalyze A t).1 * 100 + 1 / 2⌋, rfl⟩

/-- A property holding of a default and of every member holds of `headD`. -/
theorem headD_prop {α : Type} (P : α → Prop) (l : List α) (d : α)
    (hd : P d) (hl : ∀ x ∈ l, P x) : P (l.headD d) := by
  cases l with
  | nil => exact hd
  | cons a as => exact hl a (List.mem_cons_self a as)

/-- A property holding of a default and of every member holds of
`getLastD`. -/
theorem getLastD_prop {α : Type} (P : α → Prop) (l : List α) (d : α)
    (hd : P d) (hl : ∀ x ∈ l, P x) : P (l.getLastD d) := by
  cases l with
  | nil => exact hd
  | cons a as =>
    rw [List.getLastD_eq_getLast?, List.getLast?_eq_getLast (a :: as)
      (by simp), Option.getD_some]
    exact hl _ (List.getLast_mem _)

/-- The progression endpoints are drawn from the stored segment scores (or
the constant defaults). -/
theorem analyzeProgression_scores (sa : SegmentAnalysis)
    (hall : ∀ s ∈ sa.segments, ∃ k : ℤ, s.score = (k : ℚ) / 100) :
    (∃ k : ℤ, (analyzeProgression sa).startScore = (k : ℚ) / 100) ∧
    (∃ k : ℤ, (analyzeProgression sa).endScore = (k : ℚ) / 100) := by
  have hP : ∀ x ∈ sa.segments.filter (fun s => s.type = SegType.beginning),
      ∃ k : ℤ, x.score = (k : ℚ) / 100 :=
    fun x hx => hall x (List.mem_of_mem_filter hx)
  have hP' : ∀ x ∈ sa.segments.filter (fun s => s.type = SegType.ending),
      ∃ k : ℤ, x.score = (k : ℚ) / 100 :=
    fun x hx => hall x (List.mem_of_mem_filter hx)
  have hmain :
      (∃ k : ℤ, (((sa.segments.filter
          (fun s => s.type = SegType.beginning)).headD
            (sa.segments.headD dummySegScore)).score) = (k : ℚ) / 100) ∧
      (∃ k : ℤ, (((sa.segments.filter
          (fun s => s.type = SegType.ending)).headD
            (sa.segments.getLastD dummySegScore)).score) = (k : ℚ) / 100) :=
    ⟨headD_prop (fun x : SegmentScore => ∃ k : ℤ, x.score = (k : ℚ) / 100) _ _
        (headD_prop (fun x : SegmentScore => ∃ k : ℤ, x.score = (k : ℚ) / 100)
          _ _ ⟨0, by norm_num [dummySegScore]⟩ hall) hP,
      headD_prop (fun x : SegmentScore => ∃ k : ℤ, x.score = (k : ℚ) / 100) _ _
        (getLastD_prop (fun x : SegmentScore => ∃ k : ℤ, x.score = (k : ℚ) / 100)
          _ _ ⟨0, by norm_num [dummySegScore]⟩ hall) hP'⟩
  unfold analyzeProgression
  dsimp only
  split_ifs with hlen h1 h2
  · exact ⟨⟨0, by norm_num⟩, ⟨0, by norm_num⟩⟩
  · exact hmain
  · exact hmain
  · exact hmain

/-- The conclusion factor's stored score is a base-analyzer score (or the
constant default). -/
theorem analyzeConclusion_score (C : ContextualAnalyzer) (segs : List Segment)
    (hshape : ∀ inp, ∃ k : ℤ, (C.baseAnalyze inp).score = (k : ℚ) / 100) :
    ∃ k : ℤ, (analyzeConclusion C segs).score = (k : ℚ) / 100 := by
  unfold analyzeConclusion
  split
  · exact ⟨0, by norm_num⟩
  · dsimp only
    exact hshape _

/-- The transition factor's stored before/after scores are base-analyzer
scores (or the constant defaults). -/
theorem analyzeTransitions_scores (C : ContextualAnalyzer) (text : String)
    (hshape : ∀ inp, ∃ k : ℤ, (C.baseAnalyze inp).score = (k : ℚ) / 100) :
    (∃ k : ℤ, (analyzeTransitions C text).beforeScore = (k : ℚ) / 100) ∧
    (∃ k : ℤ, (analyzeTransitions C text).afterScore = (k : ℚ) / 100) := by
  unfold analyzeTransitions
  dsimp only
  split
  · exact ⟨⟨0, by norm_num⟩, ⟨0, by norm_num⟩⟩
  · split_ifs
    · exact ⟨⟨0, by norm_num⟩, ⟨0, by norm_num⟩⟩
    · exact ⟨hshape _, hshape _⟩

/-- C10: both returned numbers of the lexical scorer are the two-decimal
roundings of the internally computed values, and the structural stages
consume those rounded per-segment scores: every score stored in the
segment list, the progression endpoints, the conclusion score and the
transition before/after scores are integer numbers of hundredths. -/
theorem spec_C10_downstream_rounding (A : SentimentAnalyzer)
    (C : ContextualAnalyzer) (t : String) (hC : C.baseAnalyze = A.analyze) :
    ((A.analyze (some t)).score =
      toFixed2 (if t = "" then 1 / 2 else (rawAnalyze A t).1)) ∧
    ((A.analyze (some t)).confidence =
      toFixed2 (if t = "" then 0 else (rawAnalyze A t).2.1)) ∧
    (∀ cf, (C.analyze (some t)).contextFactors = some cf →
      (∀ s ∈ cf.segments.segments, ∃ k : ℤ, s.score = (k : ℚ) / 100) ∧
      (∃ k : ℤ, cf.progression.startScore = (k : ℚ) / 100) ∧
      (∃ k : ℤ, cf.progression.endScore = (k : ℚ) / 100) ∧
      (∃ k : ℤ, cf.conclusion.score = (k : ℚ) / 100) ∧
      (∃ k : ℤ, cf.transitions.beforeScore = (k : ℚ) / 100) ∧
      (∃ k : ℤ, cf.transitions.afterScore = (k : ℚ) / 100)) := by
  have hshape : ∀ inp, ∃ k : ℤ, (C.baseAnalyze inp).score = (k : ℚ) / 100 := by
    intro inp
    rw [hC]
    exact analyze_score_hundredths A inp
  have hseg : ∀ segs, ∀ s ∈ (analyzeSegments C segs).segments,
      ∃ k : ℤ, s.score = (k : ℚ) / 100 := by
    intro segs s hs
    unfold analyzeSegments at hs
    dsimp only at hs
    rw [List.mem_map] at hs
    obtain ⟨seg, _, rfl⟩ := hs
    dsimp only
    exact hshape _
  refine ⟨?_, ?_, ?_⟩
  · unfold SentimentAnalyzer.analyze
    dsimp only
    split_ifs with h
    · norm_num [neutralBase, toFixed2]
    · rfl
  · unfold SentimentAnalyzer.analyze
    dsimp only
    split_ifs with h
    · norm_num [neutralBase, toFixed2]
    · rfl
  · intro cf hcf
    unfold ContextualAnalyzer.analyze at hcf
    by_cases hb : decide ((trimString t).length < 10) = true
    · rw [if_pos hb] at hcf
      exact absurd hcf (by simp)
    · rw [if_neg hb] at hcf
      dsimp only at hcf
      rw [Option.some_inj] at hcf
      subst hcf
      dsimp only
      refine ⟨hseg _,
        (analyzeProgression_scores _ (hseg _)).1,
        (analyzeProgression_scores _ (hseg _)).2,
        analyzeConclusion_score C _ hshape,
        (analyzeTransitions_scores C _ hshape).1,
        (analyzeTransitions_scores C _ hshape).2⟩

theorem spec_C10_witness :
    ((SentimentAnalyzer.analyze emptyAnalyzer (some "bof")).score =
      toFixed2 (if "bof" = "" then 1 / 2
        else (rawAnalyze emptyAnalyzer "bof").1)) ∧
    ((SentimentAnalyzer.analyze emptyAnalyzer (some "bof")).confidence =
      toFixed2 (if "bof" = "" then 0
        else (rawAnalyze emptyAnalyzer "bof").2.1)) ∧
    (∀ cf, (emptyContextual.analyze (some "bof")).contextFactors = some cf →
      (∀ s ∈ cf.segments.segments, ∃ k : ℤ, s.score = (k : ℚ) / 100) ∧
      (∃ k : ℤ, cf.progression.startScore = (k : ℚ) / 100) ∧
      (∃ k : ℤ, cf.progression.endScore = (k : ℚ) / 100) ∧
      (∃ k : ℤ, cf.conclusion.score = (k : ℚ) / 100) ∧
      (∃ k : ℤ, cf.transitions.beforeScore = (k : ℚ) / 100) ∧
      (∃ k : ℤ, cf.transitions.afterScore = (k : ℚ) / 100)) :=
  spec_C10_downstream_rounding emptyAnalyzer emptyContextual "bof" rfl

/-! ### Bounds lemmas for C6 -/

/-- A successful association-list lookup returns a stored pair. -/
theorem alookup_mem {α β : Type} [DecidableEq α] (k : α) :
    ∀ (l : List (α × β)) (v : β), alookup k l = some v → (k, v) ∈ l := by
  intro l
  induction l with
  | nil => intro v h; simp [alookup] at h
  | cons p rest ih =>
    intro v h
    obtain ⟨pk, pv⟩ := p
    unfold alookup at h
    split_ifs at h with hk
    · rw [Option.some_inj] at h
      subst h
      subst hk
      exact List.mem_cons_self _ _
    · exact List.mem_cons_of_mem _ (ih v h)

/-- Rounding to two decimals preserves the unit interval. -/
theorem toFixed2_mem_unit (x : ℚ) (h0 : 0 ≤ x) (h1 : x ≤ 1) :
    0 ≤ toFixed2 x ∧ toFixed2 x ≤ 1 := by
  unfold toFixed2
  constructor
  · have : (0 : ℤ) ≤ ⌊x * 100 + 1 / 2⌋ := by
      rw [show (0 : ℤ) = ⌊(1 / 2 : ℚ)⌋ by norm_num]
      exact Int.floor_le_floor (by linarith)
    have : (0 : ℚ) ≤ (⌊x * 100 + 1 / 2⌋ : ℚ) := by exact_mod_cast this
    positivity
  · have hle : (⌊x * 100 + 1 / 2⌋ : ℚ) ≤ x * 100 + 1 / 2 := Int.floor_le _
    have : (⌊x * 100 + 1 / 2⌋ : ℚ) < 101 := by linarith
    have hint : ⌊x * 100 + 1 / 2⌋ ≤ 100 := by exact_mod_cast Int.lt_add_one_iff.mp (by exact_mod_cast this)
    have : (⌊x * 100 + 1 / 2⌋ : ℚ) ≤ 100 := by exact_mod_cast hint
    linarith

/-- A resolved base polarity lies in `[0, 1]` whenever every table value
does. -/
theorem lookupWordScore_mem_unit (A : SentimentAnalyzer)
    (hpos : ∀ p ∈ A.positiveWords, 0 ≤ p.2 ∧ p.2 ≤ 1)
    (hneu : ∀ p ∈ A.neutralWords, 0 ≤ p.2 ∧ p.2 ≤ 1)
    (hneg : ∀ p ∈ A.negativeWords, 0 ≤ p.2 ∧ p.2 ≤ 1)
    (w : String) (v : ℚ) (h : lookupWordScore A w = some v) :
    0 ≤ v ∧ v ≤ 1 := by
  unfold lookupWordScore at h
  cases hp : alookup w A.positiveWords with
  | some v' =>
    rw [hp, Option.some_inj] at h
    subst h
    exact hpos _ (alookup_mem w _ _ hp)
  | none =>
    rw [hp] at h
    cases hn : alookup w A.negativeWords with
    | some v' =>
      rw [hn, Option.some_inj] at h
      subst h
      exact hneg _ (alookup_mem w _ _ hn)
    | none =>
      rw [hn] at h
      exact hneu _ (alookup_mem w _ _ h)

/-- The negation blend stays in `[0, 1]` while within the window. -/
theorem negationBlend_mem_unit (negDist W : ℕ) (s : ℚ)
    (hd1 : 1 ≤ negDist) (hd2 : negDist ≤ W) (h0 : 0 ≤ s) (h1 : s ≤ 1) :
    0 ≤ 1 / 2 + (1 / 2 - s) * (1 - (negDist : ℚ) / (W : ℚ)) ∧
      1 / 2 + (1 / 2 - s) * (1 - (negDist : ℚ) / (W : ℚ)) ≤ 1 := by
  have hdQ1 : (1 : ℚ) ≤ (negDist : ℚ) := by exact_mod_cast hd1
  have hdQ2 : (negDist : ℚ) ≤ (W : ℚ) := by exact_mod_cast hd2
  have hWpos : (0 : ℚ) < (W : ℚ) := by linarith
  have hr1 : (negDist : ℚ) / (W : ℚ) ≤ 1 := by
    rw [div_le_one hWpos]; exact hdQ2
  have hr0 : 0 ≤ (negDist : ℚ) / (W : ℚ) := by positivity
  constructor <;> nlinarith [mul_le_mul_of_nonneg_right h1
    (sub_nonneg.mpr hr1)]

/-- The whole per-token transform preserves `[0, 1]` (for an active scope
the loop guarantees `1 ≤ negDist ≤ negationWindow` at scoring time). -/
theorem modifiedTokenScore_mem_unit (negActive : Bool) (negDist W : ℕ)
    (m s : ℚ)
    (hguar : negActive = true → 1 ≤ negDist ∧ negDist ≤ W)
    (h0 : 0 ≤ s) (h1 : s ≤ 1) :
    0 ≤ modifiedTokenScore negActive negDist W m s ∧
      modifiedTokenScore negActive negDist W m s ≤ 1 := by
  unfold modifiedTokenScore
  dsimp only
  have hs1 : 0 ≤ (if negActive = true then
        1 / 2 + (1 / 2 - s) * (1 - (negDist : ℚ) / (W : ℚ)) else s) ∧
      (if negActive = true then
        1 / 2 + (1 / 2 - s) * (1 - (negDist : ℚ) / (W : ℚ)) else s) ≤ 1 := by
    cases negActive with
    | false => simpa using ⟨h0, h1⟩
    | true =>
      obtain ⟨hd1, hd2⟩ := hguar rfl
      simpa using negationBlend_mem_unit negDist W s hd1 hd2 h0 h1
  obtain ⟨hs0, hs1'⟩ := hs1
  set s1 : ℚ := (if negActive = true then
    1 / 2 + (1 / 2 - s) * (1 - (negDist : ℚ) / (W : ℚ)) else s) with hdef
  split_ifs with hm hinv hm1 hgt hlt
  · norm_num
  · constructor <;> linarith
  · refine ⟨le_min (by norm_num) (by nlinarith), min_le_left _ _⟩
  · refine ⟨le_max_left _ _, max_le (by norm_num) (by nlinarith)⟩
  · exact ⟨hs0, hs1'⟩
  · exact ⟨hs0, hs1'⟩

/-- Local-context re-scoring preserves `[0, 1]`. -/
theorem analyzeWordContext_mem_unit (A : SentimentAnalyzer)
    (contextWords : List String) (c : ℚ) (h0 : 0 ≤ c) (h1 : c ≤ 1) :
    0 ≤ analyzeWordContext A contextWords c ∧
      analyzeWordContext A contextWords c ≤ 1 := by
  unfold analyzeWordContext
  dsimp only
  split_ifs with he hs hb1 hb2 hb3 hb4
  · exact ⟨h0, h1⟩
  · exact ⟨h0, h1⟩
  · obtain ⟨hcm, hc⟩ := hb1
    refine ⟨le_min (by norm_num) (by nlinarith), min_le_left _ _⟩
  · obtain ⟨hcm, hc⟩ := hb2
    refine ⟨le_max_left _ _, max_le (by norm_num) (by nlinarith)⟩
  · obtain ⟨hcm, hc⟩ := hb3
    refine ⟨le_min (by norm_num) (by nlinarith),
      le_trans (min_le_left _ _) (by norm_num)⟩
  · obtain ⟨hcm, hc⟩ := hb4
    refine ⟨le_trans (by norm_num) (le_max_left _ _),
      max_le (by norm_num) (by nlinarith)⟩
  · exact ⟨h0, h1⟩

/-- Sums of unit-interval values are bounded by the count. -/
theorem mapSum_mem_bounds {α : Type} (f : α → ℚ) :
    ∀ l : List α, (∀ x ∈ l, 0 ≤ f x ∧ f x ≤ 1) →
      0 ≤ (l.map f).sum ∧ (l.map f).sum ≤ (l.length : ℚ) := by
  intro l
  induction l with
  | nil => intro _; simp
  | cons a rest ih =>
    intro h
    have ha := h a (List.mem_cons_self a rest)
    have hrest := ih (fun x hx => h x (List.mem_cons_of_mem a hx))
    simp only [List.map_cons, List.sum_cons, List.length_cons]
    push_cast
    constructor <;> linarith [ha.1, ha.2, hrest.1, hrest.2]

/-- Every idiom detected by the simple strategy carries a score stored in
the idiom table. -/
theorem simpleIdioms_score_mem (A : SentimentAnalyzer) (n : String) :
    ∀ d ∈ simpleIdioms A n, (d.phrase, d.score) ∈ A.idioms := by
  intro d hd
  unfold simpleIdioms at hd
  rw [List.mem_filterMap] at hd
  obtain ⟨iv, hiv, heq⟩ := hd
  split_ifs at heq
  rw [Option.some_inj] at heq
  subst heq
  simpa using hiv

/-- `upsertKeyword` only ever stores the given info on top of what the map
already holds. -/
theorem upsertKeyword_prop (P : IdiomInfo → Prop) :
    ∀ (m : List (String × List IdiomInfo)) (k : String) (v : IdiomInfo),
      (∀ e ∈ m, ∀ i ∈ e.2, P i) → P v →
      ∀ e ∈ upsertKeyword m k v, ∀ i ∈ e.2, P i := by
  intro m
  induction m with
  | nil =>
    intro k v _ hv e he i hi
    simp only [upsertKeyword, List.mem_singleton] at he
    subst he
    simp only [List.mem_singleton] at hi
    subst hi
    exact hv
  | cons p rest ih =>
    intro k v hm hv e he i hi
    obtain ⟨pk, pvs⟩ := p
    unfold upsertKeyword at he
    split_ifs at he with hk
    · rcases List.mem_cons.mp he with he | he
      · subst he
        rcases List.mem_append.mp hi with hi | hi
        · exact hm (pk, pvs) (List.mem_cons_self _ _) i hi
        · rw [List.mem_singleton] at hi
          subst hi
          exact hv
      · exact hm _ (List.mem_cons_of_mem _ he) i hi
    · rcases List.mem_cons.mp he with he | he
      · subst he
        exact hm (pk, pvs) (List.mem_cons_self _ _) i hi
      · exact ih k v (fun e' he' => hm e' (List.mem_cons_of_mem _ he')) hv
          e he i hi

/-- Invariant preservation through the keyword-map fold. -/
theorem foldl_keywords_prop (P : IdiomInfo → Prop)
    (step : List (String × List IdiomInfo) → (String × ℚ) →
      List (String × List IdiomInfo))
    (hstep : ∀ m iv, (∀ e ∈ m, ∀ i ∈ e.2, P i) → P ⟨iv.1, iv.2⟩ →
      ∀ e ∈ step m iv, ∀ i ∈ e.2, P i) :
    ∀ (l : List (String × ℚ)) (acc : List (String × List IdiomInfo)),
      (∀ e ∈ acc, ∀ i ∈ e.2, P i) → (∀ iv ∈ l, P ⟨iv.1, iv.2⟩) →
      ∀ e ∈ l.foldl step acc, ∀ i ∈ e.2, P i := by
  intro l
  induction l with
  | nil => intro acc hacc _; simpa using hacc
  | cons iv rest ih =>
    intro acc hacc hl
    rw [List.foldl_cons]
    exact ih (step acc iv)
      (hstep acc iv hacc (hl iv (List.mem_cons_self _ _)))
      (fun iv' h => hl iv' (List.mem_cons_of_mem _ h))

/-- Every info stored in the keyword map comes from the idiom table. -/
theorem buildIdiomKeywords_prop (idioms : List (String × ℚ)) :
    ∀ e ∈ buildIdiomKeywords idioms, ∀ i ∈ e.2,
      (i.fullIdiom, i.score) ∈ idioms := by
  unfold buildIdiomKeywords
  refine foldl_keywords_prop (fun i => (i.fullIdiom, i.score) ∈ idioms) _
    ?_ idioms [] (by simp) (fun iv hiv => by simpa using hiv)
  intro m iv hm hv
  dsimp only
  split_ifs with h1 h2
  · exact upsertKeyword_prop _ m _ _ hm hv
  · exact hm
  · exact upsertKeyword_prop _ m _ _ hm hv

/-- Every idiom detected by the pattern-aware strategy carries a score
stored in the idiom table. -/
theorem detectIdioms_score_mem (A : SentimentAnalyzer) (n : String) :
    ∀ d ∈ detectIdioms A n, (d.phrase, d.score) ∈ A.idioms := by
  intro d hd
  unfold detectIdioms at hd
  dsimp only at hd
  rw [List.mem_flatMap] at hd
  obtain ⟨i, _, hd⟩ := hd
  rw [List.mem_flatMap] at hd
  obtain ⟨kentry, hk, hd⟩ := hd
  split at hd
  · rw [List.mem_filterMap] at hd
    obtain ⟨info, hinfo, heq⟩ := hd
    have hmem := buildIdiomKeywords_prop A.idioms kentry hk info hinfo
    split at heq
    · split at heq
      · rw [Option.some_inj] at heq
        subst heq
        exact hmem
      · exact absurd heq (by simp)
    · rw [Option.some_inj] at heq
      subst heq
      exact hmem
  · exact absurd hd (by simp)

/-- The running-accumulator invariant of the word loop: the total stays
between `0` and the evidence count, and the confidence stays nonnegative. -/
def StInv (st : LoopState) : Prop :=
  0 ≤ st.totalScore ∧ st.totalScore ≤ (st.wordCount : ℚ) ∧ 0 ≤ st.confidence

theorem stepNegation_inv (A : SentimentAnalyzer) (ws : List String)
    (st : LoopState) (i : ℕ) (h : StInv st) :
    StInv (stepNegation A ws st i) := by
  unfold stepNegation
  dsimp only
  split_ifs <;> exact h

/-- After the distance bookkeeping, an active scope satisfies
`1 ≤ negDist ≤ negationWindow`. -/
theorem stepNegation_guar (A : SentimentAnalyzer) (ws : List String)
    (st : LoopState) (i : ℕ) :
    (stepNegation A ws st i).negActive = true →
      1 ≤ (stepNegation A ws st i).negDist ∧
        (stepNegation A ws st i).negDist ≤ A.negationWindow := by
  unfold stepNegation
  dsimp only
  split_ifs with ha hw
  · intro h; simp at h
  · intro _
    refine ⟨?_, ?_⟩ <;> dsimp only <;> omega
  · intro h; exact absurd h ha

theorem scoreWord_inv (A : SentimentAnalyzer) (ws : List String)
    (st1 : LoopState) (i : ℕ)
    (hpos : ∀ p ∈ A.positiveWords, 0 ≤ p.2 ∧ p.2 ≤ 1)
    (hneu : ∀ p ∈ A.neutralWords, 0 ≤ p.2 ∧ p.2 ≤ 1)
    (hneg : ∀ p ∈ A.negativeWords, 0 ≤ p.2 ∧ p.2 ≤ 1)
    (hinv : StInv st1)
    (hguar : st1.negActive = true →
      1 ≤ st1.negDist ∧ st1.negDist ≤ A.negationWindow) :
    StInv (scoreWord A ws st1 i) := by
  unfold scoreWord
  dsimp only
  split
  · exact hinv
  · rename_i wordScore heq
    have hws := lookupWordScore_mem_unit A hpos hneu hneg _ _ heq
    have hms := modifiedTokenScore_mem_unit st1.negActive st1.negDist
      A.negationWindow (resolveModifier A ws i (ws.getD i "")).1 wordScore
      hguar hws.1 hws.2
    have hctx := analyzeWordContext_mem_unit A
      (getContextWords ws i A.contextWindow) _ hms.1 hms.2
    obtain ⟨h1, h2, h3⟩ := hinv
    refine ⟨add_nonneg h1 hctx.1, ?_, add_nonneg h3 (by norm_num)⟩
    push_cast
    linarith [hctx.2]

theorem processToken_inv (A : SentimentAnalyzer) (ws : List String)
    (st : LoopState) (i : ℕ)
    (hpos : ∀ p ∈ A.positiveWords, 0 ≤ p.2 ∧ p.2 ≤ 1)
    (hneu : ∀ p ∈ A.neutralWords, 0 ≤ p.2 ∧ p.2 ≤ 1)
    (hneg : ∀ p ∈ A.negativeWords, 0 ≤ p.2 ∧ p.2 ≤ 1)
    (h : StInv st) : StInv (processToken A ws st i) := by
  unfold processToken
  dsimp only
  split_ifs with hc
  · exact h
  · exact scoreWord_inv A ws _ i hpos hneu hneg
      (stepNegation_inv A ws st i h) (stepNegation_guar A ws st i)

theorem foldl_processToken_inv (A : SentimentAnalyzer) (ws : List String)
    (hpos : ∀ p ∈ A.positiveWords, 0 ≤ p.2 ∧ p.2 ≤ 1)
    (hneu : ∀ p ∈ A.neutralWords, 0 ≤ p.2 ∧ p.2 ≤ 1)
    (hneg : ∀ p ∈ A.negativeWords, 0 ≤ p.2 ∧ p.2 ≤ 1) :
    ∀ (l : List ℕ) (st : LoopState), StInv st →
      StInv (l.foldl (processToken A ws) st) := by
  intro l
  induction l with
  | nil => intro st h; simpa using h
  | cons a rest ih =>
    intro st h
    rw [List.foldl_cons]
    exact ih _ (processToken_inv A ws st a hpos hneu hneg h)

/-- Bounds of the final aggregation (lines 231-238). -/
theorem final_bounds (total conf : ℚ) (wc : ℕ)
    (h1 : 0 ≤ total) (h2 : total ≤ (wc : ℚ)) (h3 : 0 ≤ conf) :
    (0 ≤ (if 0 < wc then total / (wc : ℚ) else 1 / 2) ∧
      (if 0 < wc then total / (wc : ℚ) else 1 / 2) ≤ 1) ∧
    (0 ≤ (if 0 < wc then min 1 (conf / ((wc : ℚ) * (8 / 10))) else 0) ∧
      (if 0 < wc then min 1 (conf / ((wc : ℚ) * (8 / 10))) else 0) ≤ 1) := by
  split_ifs with hwc
  · have hpos : (0 : ℚ) < (wc : ℚ) := by exact_mod_cast hwc
    refine ⟨⟨div_nonneg h1 (le_of_lt hpos), ?_⟩,
      ⟨le_min (by norm_num) (div_nonneg h3 (by positivity)),
        min_le_left _ _⟩⟩
    rw [div_le_one hpos]
    exact h2
  · norm_num

/-- The unrounded final score and confidence of the lexical scorer stay in
the unit interval under a unit-interval lexicon. -/
theorem rawAnalyze_mem_unit (A : SentimentAnalyzer) (t : String)
    (hpos : ∀ p ∈ A.positiveWords, 0 ≤ p.2 ∧ p.2 ≤ 1)
    (hneu : ∀ p ∈ A.neutralWords, 0 ≤ p.2 ∧ p.2 ≤ 1)
    (hneg : ∀ p ∈ A.negativeWords, 0 ≤ p.2 ∧ p.2 ≤ 1)
    (hidi : ∀ p ∈ A.idioms, 0 ≤ p.2 ∧ p.2 ≤ 1)
    (hemo : ∀ p ∈ A.emojiSentiments, 0 ≤ p.2 ∧ p.2 ≤ 1) :
    (0 ≤ (rawAnalyze A t).1 ∧ (rawAnalyze A t).1 ≤ 1) ∧
      (0 ≤ (rawAnalyze A t).2.1 ∧ (rawAnalyze A t).2.1 ≤ 1) := by
  have hdet : ∀ d ∈ (if A.idiomPatterns ≠ [] then
      detectIdioms A (normalizedText t) else simpleIdioms A (normalizedText t)),
      0 ≤ IdiomEvidence.score d ∧ IdiomEvidence.score d ≤ 1 := by
    intro d hd
    split_ifs at hd
    · exact hidi _ (detectIdioms_score_mem A _ d hd)
    · exact hidi _ (simpleIdioms_score_mem A _ d hd)
  have hemoEv : ∀ e ∈ (t.toList.filter A.isEmoji).filterMap (fun e =>
      (alookup e A.emojiSentiments).map (fun s => EmojiEvidence.mk e s)),
      0 ≤ EmojiEvidence.score e ∧ EmojiEvidence.score e ≤ 1 := by
    intro e he
    rw [List.mem_filterMap] at he
    obtain ⟨c, _, heq⟩ := he
    cases hl : alookup c A.emojiSentiments with
    | none => rw [hl] at heq; simp at heq
    | some s =>
      rw [hl] at heq
      simp only [Option.map_some'] at heq
      rw [Option.some_inj] at heq
      subst heq
      simpa using hemo _ (alookup_mem c _ _ hl)
  have hs1 := mapSum_mem_bounds IdiomEvidence.score _ hdet
  have hs2 := mapSum_mem_bounds EmojiEvidence.score _ hemoEv
  have hst0 : StInv
      { negActive := false, negDist := 0, wordsEv := [], modifiersEv := [],
        totalScore := (((if A.idiomPatterns ≠ [] then
            detectIdioms A (normalizedText t)
          else simpleIdioms A (normalizedText t)).map
            IdiomEvidence.score).sum) +
          ((((t.toList.filter A.isEmoji).filterMap (fun e =>
            (alookup e A.emojiSentiments).map (fun s =>
              EmojiEvidence.mk e s))).map EmojiEvidence.score).sum),
        wordCount := (if A.idiomPatterns ≠ [] then
            detectIdioms A (normalizedText t)
          else simpleIdioms A (normalizedText t)).length +
          ((t.toList.filter A.isEmoji).filterMap (fun e =>
            (alookup e A.emojiSentiments).map (fun s =>
              EmojiEvidence.mk e s))).length,
        confidence := (8 / 10) * (((if A.idiomPatterns ≠ [] then
            detectIdioms A (normalizedText t)
          else simpleIdioms A (normalizedText t)).length : ℚ)) +
          (7 / 10) * ((((t.toList.filter A.isEmoji).filterMap (fun e =>
            (alookup e A.emojiSentiments).map (fun s =>
              EmojiEvidence.mk e s))).length : ℚ)) } := by
    refine ⟨add_nonneg hs1.1 hs2.1, ?_, ?_⟩
    · dsimp only
      push_cast
      linarith [hs1.2, hs2.2]
    · dsimp only
      positivity
  have hst := foldl_processToken_inv A (wordsOf t) hpos hneu hneg
    (List.range (wordsOf t).length) _ hst0
  unfold rawAnalyze
  dsimp only
  exact final_bounds _ _ _ hst.1 hst.2.1 hst.2.2

/-- The lexical scorer's returned score and confidence stay in the unit
interval under a unit-interval lexicon. -/
theorem analyze_mem_unit (A : SentimentAnalyzer) (input : Option String)
    (hpos : ∀ p ∈ A.positiveWords, 0 ≤ p.2 ∧ p.2 ≤ 1)
    (hneu : ∀ p ∈ A.neutralWords, 0 ≤ p.2 ∧ p.2 ≤ 1)
    (hneg : ∀ p ∈ A.negativeWords, 0 ≤ p.2 ∧ p.2 ≤ 1)
    (hidi : ∀ p ∈ A.idioms, 0 ≤ p.2 ∧ p.2 ≤ 1)
    (hemo : ∀ p ∈ A.emojiSentiments, 0 ≤ p.2 ∧ p.2 ≤ 1) :
    (0 ≤ (A.analyze input).score ∧ (A.analyze input).score ≤ 1) ∧
      (0 ≤ (A.analyze input).confidence ∧
        (A.analyze input).confidence ≤ 1) := by
  cases input with
  | none => norm_num [SentimentAnalyzer.analyze, neutralBase]
  | some t =>
    unfold SentimentAnalyzer.analyze
    dsimp only
    split_ifs with h
    · norm_num [neutralBase]
    · have hr := rawAnalyze_mem_unit A t hpos hneu hneg hidi hemo
      exact ⟨toFixed2_mem_unit _ hr.1.1 hr.1.2,
        toFixed2_mem_unit _ hr.2.1 hr.2.2⟩

/-- C6: under a lexicon whose polarity values all lie in `[0, 1]`, both
analyzers return a score and a confidence in `[0, 1]`; in particular the
structural analyzer's `contextualScore` is clamped into `[0, 1]`. -/
theorem spec_C6_scores_within_unit (A : SentimentAnalyzer)
    (C : ContextualAnalyzer) (input : Option String)
    (hC : C.baseAnalyze = A.analyze)
    (hpos : ∀ p ∈ A.positiveWords, 0 ≤ p.2 ∧ p.2 ≤ 1)
    (hneu : ∀ p ∈ A.neutralWords, 0 ≤ p.2 ∧ p.2 ≤ 1)
    (hneg : ∀ p ∈ A.negativeWords, 0 ≤ p.2 ∧ p.2 ≤ 1)
    (hidi : ∀ p ∈ A.idioms, 0 ≤ p.2 ∧ p.2 ≤ 1)
    (hemo : ∀ p ∈ A.emojiSentiments, 0 ≤ p.2 ∧ p.2 ≤ 1) :
    (0 ≤ (A.analyze input).score ∧ (A.analyze input).score ≤ 1) ∧
    (0 ≤ (A.analyze input).confidence ∧
      (A.analyze input).confidence ≤ 1) ∧
    (0 ≤ (C.analyze input).contextualScore ∧
      (C.analyze input).contextualScore ≤ 1) ∧
    (0 ≤ (C.analyze input).base.score ∧
      (C.analyze input).base.score ≤ 1) ∧
    (0 ≤ (C.analyze input).base.confidence ∧
      (C.analyze input).base.confidence ≤ 1) := by
  have hbase := analyze_mem_unit A input hpos hneu hneg hidi hemo
  have hbase' : (0 ≤ (C.baseAnalyze input).score ∧
      (C.baseAnalyze input).score ≤ 1) ∧
      (0 ≤ (C.baseAnalyze input).confidence ∧
        (C.baseAnalyze input).confidence ≤ 1) := by
    rw [hC]; exact hbase
  have hctx : (0 ≤ (C.analyze input).contextualScore ∧
      (C.analyze input).contextualScore ≤ 1) ∧
      (C.analyze input).base = C.baseAnalyze input := by
    unfold ContextualAnalyzer.analyze
    dsimp only
    split_ifs with hb
    · exact ⟨hbase'.1, rfl⟩
    · exact ⟨⟨le_max_left _ _,
        max_le (by norm_num) (min_le_left _ _)⟩, rfl⟩
  refine ⟨hbase.1, hbase.2, hctx.1, ?_, ?_⟩ <;> rw [hctx.2, hC]
  · exact hbase.1
  · exact hbase.2

theorem spec_C6_witness :
    (0 ≤ (SentimentAnalyzer.analyze emptyAnalyzer
        (some "Bon debut. Ensuite moyen. Fin superbe.")).score ∧
      (SentimentAnalyzer.analyze emptyAnalyzer
        (some "Bon debut. Ensuite moyen. Fin superbe.")).score ≤ 1) ∧
    (0 ≤ (SentimentAnalyzer.analyze emptyAnalyzer
        (some "Bon debut. Ensuite moyen. Fin superbe.")).confidence ∧
      (SentimentAnalyzer.analyze emptyAnalyzer
        (some "Bon debut. Ensuite moyen. Fin superbe.")).confidence ≤ 1) ∧
    (0 ≤ (emptyContextual.analyze
        (some "Bon debut. Ensuite moyen. Fin superbe.")).contextualScore ∧
      (emptyContextual.analyze
        (some "Bon debut. Ensuite moyen. Fin superbe.")).contextualScore ≤ 1) ∧
    (0 ≤ (emptyContextual.analyze
        (some "Bon debut. Ensuite moyen. Fin superbe.")).base.score ∧
      (emptyContextual.analyze
        (some "Bon debut. Ensuite moyen. Fin superbe.")).base.score ≤ 1) ∧
    (0 ≤ (emptyContextual.analyze
        (some "Bon debut. Ensuite moyen. Fin superbe.")).base.confidence ∧
      (emptyContextual.analyze
        (some "Bon debut. Ensuite moyen. Fin superbe.")).base.confidence ≤ 1) :=
  spec_C6_scores_within_unit emptyAnalyzer emptyContextual
    (some "Bon debut. Ensuite moyen. Fin superbe.") rfl
    (by simp [emptyAnalyzer]) (by simp [emptyAnalyzer])
    (by simp [emptyAnalyzer]) (by simp [emptyAnalyzer])
    (by simp [emptyAnalyzer])

end MindSet
